import Mathlib

/-!
Verification of the Gmail Unsubscriber email-processing pipeline
(`gmail-unsubscriber-backend/app.py`) against its specification.

The embedding models:
  * the Gmail MIME part tree and the content extractors
    `extract_html_content` / `extract_text_content` / `get_email`;
  * the per-user stats model mutated by `process_unsubscriptions`
    (`total_scanned`, `total_unsubscribed`, `time_saved`,
    `domains_unsubscribed`);
  * the unsubscribe-link locator `extract_unsub_links` (with the HTML
    parse abstracted to the anchor list the parser produces);
  * the unsubscription executor `execute_unsub` (with the network GET
    abstracted to its outcome);
  * the per-message batch loop of `process_unsubscriptions`.

Python exceptions are modelled with `Except Unit`; a `try/except` that
converts every exception into a normal return becomes a total function.
Base64+utf-8 decoding of a body's `data` field is abstracted to its
outcome: `BodyData.decoded s` for data that decodes to `s`,
`BodyData.malformed` for data whose decode raises.
-/

/-- Outcome of the `data` field of a MIME body: absent (`'data' not in body`),
present but raising on decode, or decoding to a string. -/
inductive BodyData where
  | absent : BodyData
  | malformed : BodyData
  | decoded : String → BodyData
deriving DecidableEq

/-- A node of the Gmail message payload tree: `mimeType`, `body.data`
(abstracted to its decode outcome) and the `parts` list. -/
inductive MimePart where
  | mk (mimeType : String) (body : BodyData) (parts : List MimePart)

def MimePart.mimeType : MimePart → String
  | .mk t _ _ => t

def MimePart.body : MimePart → BodyData
  | .mk _ b _ => b

def MimePart.parts : MimePart → List MimePart
  | .mk _ _ ps => ps

/-- Decoding the body of a single-part payload in `extract_html_content` /
`extract_text_content`: no `data` key falls through to `return ""`,
malformed data raises, good data yields its text. -/
def decode_body : BodyData → Except Unit String
  | .absent => .ok ""
  | .malformed => .error ()
  | .decoded s => .ok s

/-- One loop step on a part of the searched type (`if 'data' in
part.get('body', {}): ... return data`): absent data falls through to the
continuation, malformed data raises out of the loop, good data is
returned — even when it decodes to the empty string. -/
def loop_hit (b : BodyData) (cont : Except Unit String) : Except Unit String :=
  match b with
  | .absent => cont
  | .malformed => .error ()
  | .decoded s => .ok s

/-- One loop step on a part with nested parts (`elif part.get('parts'):`):
the recursive call is the full extractor with its own `except` clause, so
an internal error becomes an empty result; a nonempty result is returned,
an empty one falls through to the continuation. -/
def loop_nested (sub : Except Unit String) (cont : Except Unit String) : Except Unit String :=
  match sub with
  | .error _ => cont
  | .ok s => if s = "" then cont else .ok s

mutual

/-- Body of the `try:` block of `extract_html_content` (app.py:1356-1380)
and `extract_text_content` (app.py:1386-1410), generic in the searched
`mimeType` (the two Python functions are textually identical up to the
`text/html` / `text/plain` constant). `.error ()` models an exception
propagating to the function's own `except` clause. A payload with parts
enters the part loop; a single-part payload checks its own type. -/
def extract_mime_try (mt : String) : MimePart → Except Unit String
  | .mk pt b [] => if pt = mt then decode_body b else .ok ""
  | .mk _ _ (p :: rest) => extract_mime_loop mt (p :: rest)

/-- The `for part in parts:` loop of the extractors: a part of the
searched type is handled by `loop_hit` (its nested parts, if any, are
skipped by the `elif`); otherwise a part with nested parts is handled by
`loop_nested` around the recursive extraction; otherwise the loop moves
on. -/
def extract_mime_loop (mt : String) : List MimePart → Except Unit String
  | [] => .ok ""
  | .mk pt b [] :: rest =>
    if pt = mt then loop_hit b (extract_mime_loop mt rest)
    else extract_mime_loop mt rest
  | .mk pt b (c :: crest) :: rest =>
    if pt = mt then loop_hit b (extract_mime_loop mt rest)
    else loop_nested (extract_mime_try mt (.mk pt b (c :: crest))) (extract_mime_loop mt rest)

end

/-- The full extractor: the `try:` body with its `except` clause returning
`""` on any exception. -/
def extract_mime_content (mt : String) (payload : MimePart) : String :=
  match extract_mime_try mt payload with
  | .ok s => s
  | .error _ => ""

/-- Function `extract_html_content` (app.py:1356-1384). -/
def extract_html_content (payload : MimePart) : String :=
  extract_mime_content "text/html" payload

/-- Function `extract_text_content` (app.py:1386-1414). -/
def extract_text_content (payload : MimePart) : String :=
  extract_mime_content "text/plain" payload

/-- The content part of `get_email` (app.py:1341-1350): HTML first, then
the plain-text fallback when the HTML result is empty. -/
def get_email_content (payload : MimePart) : String :=
  let html := extract_html_content payload
  if html = "" then extract_text_content payload else html

/-- Modelled from the spec: the usable payload of a leaf — decodable body
data, `none` otherwise. -/
def leaf_payload : BodyData → Option String
  | .decoded s => some s
  | .absent => none
  | .malformed => none

mutual

/-- Modelled from the spec: the first leaf of type `mt` with a present,
decodable body payload, in depth-first traversal order (a node with a
nonempty `parts` list is an internal node and is recursed into; a node
with no parts is a leaf). -/
def first_leaf (mt : String) : MimePart → Option String
  | .mk pt b [] => if pt = mt then leaf_payload b else none
  | .mk _ _ (p :: rest) => first_leaf_list mt (p :: rest)

/-- Modelled from the spec: depth-first search over a list of sibling
parts in listed order. -/
def first_leaf_list (mt : String) : List MimePart → Option String
  | [] => none
  | p :: rest =>
    match first_leaf mt p with
    | some s => some s
    | none => first_leaf_list mt rest

end

/-- Modelled from the spec: the extracted body is the first HTML leaf in
depth-first order, else the first plain-text leaf, else the empty
string. -/
def spec_body (p : MimePart) : String :=
  match first_leaf "text/html" p with
  | some s => s
  | none =>
    match first_leaf "text/plain" p with
    | some s => s
    | none => ""

/-- A body is well formed when it is not malformed and any decoded text is
nonempty. -/
def body_ok : BodyData → Bool
  | .malformed => false
  | .decoded s => !(s = "")
  | .absent => true

mutual

/-- Well-formed MIME tree: every present body decodes to nonempty text,
and internal nodes (nonempty `parts`) are containers, not `text/html` or
`text/plain` parts (cf. the glossary: a leaf is a non-multipart part
containing the actual content bytes). -/
def wf_part : MimePart → Bool
  | .mk _ b [] => body_ok b
  | .mk pt b (p :: rest) =>
    body_ok b && (!(pt = "text/html") && !(pt = "text/plain") && wf_parts (p :: rest))

def wf_parts : List MimePart → Bool
  | [] => true
  | p :: rest => wf_part p && wf_parts rest

end


theorem wf_part_leaf {pt : String} {b : BodyData} (h : wf_part (.mk pt b []) = true) :
    body_ok b = true := h

theorem wf_part_node {pt : String} {b : BodyData} {q : MimePart} {qrest : List MimePart}
    (h : wf_part (.mk pt b (q :: qrest)) = true) :
    body_ok b = true ∧ pt ≠ "text/html" ∧ pt ≠ "text/plain" ∧ wf_parts (q :: qrest) = true := by
  rw [wf_part] at h
  simp only [Bool.and_eq_true, Bool.not_eq_true', decide_eq_false_iff_not] at h
  exact ⟨h.1, h.2.1.1, h.2.1.2, h.2.2⟩

theorem wf_parts_cons {p : MimePart} {rest : List MimePart}
    (h : wf_parts (p :: rest) = true) : wf_part p = true ∧ wf_parts rest = true := by
  rw [wf_parts] at h
  simpa using h

mutual

/-- Under well-formedness the `try:` body of the extractor computes the
first `mt`-typed leaf in depth-first order (empty string when none). -/
theorem extract_try_eq_spec (mt : String) (hmt : mt = "text/html" ∨ mt = "text/plain")
    (p : MimePart) (h : wf_part p = true) :
    extract_mime_try mt p = .ok ((first_leaf mt p).getD "") := by
  match p with
  | .mk pt b [] =>
    rw [extract_mime_try, first_leaf]
    by_cases hpt : pt = mt
    · cases b with
      | absent => simp [hpt, decode_body, leaf_payload]
      | malformed => exact absurd (wf_part_leaf h) (by simp [body_ok])
      | decoded s => simp [hpt, decode_body, leaf_payload]
    · simp [hpt]
  | .mk pt b (q :: qrest) =>
    rw [extract_mime_try, first_leaf]
    exact extract_loop_eq_spec mt hmt (q :: qrest) (wf_part_node h).2.2.2

/-- Under well-formedness the extractor's part loop computes the first
`mt`-typed leaf among the given siblings in depth-first order. -/
theorem extract_loop_eq_spec (mt : String) (hmt : mt = "text/html" ∨ mt = "text/plain")
    (ps : List MimePart) (h : wf_parts ps = true) :
    extract_mime_loop mt ps = .ok ((first_leaf_list mt ps).getD "") := by
  match ps with
  | [] => rw [extract_mime_loop, first_leaf_list]; rfl
  | .mk pt b [] :: rest =>
    obtain ⟨hp, hrest⟩ := wf_parts_cons h
    rw [extract_mime_loop, first_leaf_list, first_leaf]
    by_cases hpt : pt = mt
    · cases b with
      | absent =>
        simp only [hpt, if_pos rfl, loop_hit, leaf_payload]
        exact extract_loop_eq_spec mt hmt rest hrest
      | malformed => exact absurd (wf_part_leaf hp) (by simp [body_ok])
      | decoded s =>
        simp [hpt, loop_hit, leaf_payload]
    · simp only [hpt, if_neg hpt, leaf_payload]
      simp only [if_false]
      exact extract_loop_eq_spec mt hmt rest hrest
  | .mk pt b (c :: crest) :: rest =>
    obtain ⟨hp, hrest⟩ := wf_parts_cons h
    obtain ⟨-, h1, h2, -⟩ := wf_part_node hp
    have hpt : pt ≠ mt := by rcases hmt with rfl | rfl <;> assumption
    rw [extract_mime_loop, first_leaf_list, first_leaf]
    simp only [if_neg hpt]
    have hsub := extract_try_eq_spec mt hmt (.mk pt b (c :: crest)) hp
    rw [first_leaf] at hsub
    cases hfl : first_leaf_list mt (c :: crest) with
    | none =>
      rw [hfl] at hsub
      rw [hsub, loop_nested]
      simp only [Option.getD_none, if_pos rfl]
      exact extract_loop_eq_spec mt hmt rest hrest
    | some s =>
      have hs : s ≠ "" :=
        first_leaf_list_ne_empty mt (c :: crest) (wf_part_node hp).2.2.2 s hfl
      rw [hfl] at hsub
      rw [hsub, loop_nested]
      simp [hs]

/-- A first leaf found in a well-formed tree carries nonempty text. -/
theorem first_leaf_ne_empty (mt : String) (p : MimePart) (h : wf_part p = true) :
    ∀ s, first_leaf mt p = some s → s ≠ "" := by
  match p with
  | .mk pt b [] =>
    intro s hs
    rw [first_leaf] at hs
    by_cases hpt : pt = mt
    · rw [if_pos hpt] at hs
      cases b with
      | absent => exact absurd hs (by simp [leaf_payload])
      | malformed => exact absurd hs (by simp [leaf_payload])
      | decoded t =>
        rw [leaf_payload] at hs
        cases hs
        have := wf_part_leaf h
        simpa [body_ok] using this
    · rw [if_neg hpt] at hs; cases hs
  | .mk pt b (q :: qrest) =>
    intro s hs
    rw [first_leaf] at hs
    exact first_leaf_list_ne_empty mt (q :: qrest) (wf_part_node h).2.2.2 s hs

/-- A first leaf found among well-formed siblings carries nonempty text. -/
theorem first_leaf_list_ne_empty (mt : String) (ps : List MimePart) (h : wf_parts ps = true) :
    ∀ s, first_leaf_list mt ps = some s → s ≠ "" := by
  match ps with
  | [] => intro s hs; rw [first_leaf_list] at hs; cases hs
  | p :: rest =>
    intro s hs
    obtain ⟨hp, hrest⟩ := wf_parts_cons h
    rw [first_leaf_list] at hs
    cases hfl : first_leaf mt p with
    | some t =>
      rw [hfl] at hs
      cases hs
      exact first_leaf_ne_empty mt p hp s hfl
    | none =>
      rw [hfl] at hs
      exact first_leaf_list_ne_empty mt rest hrest s hs

end

/-- Under well-formedness the caught extractor equals the spec's
depth-first first-leaf search (empty string when absent). -/
theorem extract_content_eq_spec (mt : String) (hmt : mt = "text/html" ∨ mt = "text/plain")
    (p : MimePart) (h : wf_part p = true) :
    extract_mime_content mt p = (first_leaf mt p).getD "" := by
  rw [extract_mime_content, extract_try_eq_spec mt hmt p h]

/-- C1: for every (well-formed) message payload, content extraction
returns the first `text/html` leaf found by depth-first traversal of the
MIME part tree, falling back to the first `text/plain` leaf by the same
traversal when no HTML leaf with a body payload exists, and to the empty
string when neither exists. -/
theorem c1_extract_content_dfs (p : MimePart) (h : wf_part p = true) :
    get_email_content p = spec_body p := by
  simp only [get_email_content, extract_html_content, extract_text_content, spec_body]
  rw [extract_content_eq_spec "text/html" (Or.inl rfl) p h,
      extract_content_eq_spec "text/plain" (Or.inr rfl) p h]
  cases hh : first_leaf "text/html" p with
  | none =>
    simp only [Option.getD_none, if_pos rfl]
    cases ht : first_leaf "text/plain" p with
    | none => rfl
    | some t => rfl
  | some s =>
    have hs := first_leaf_ne_empty "text/html" p h s hh
    simp [hs]

/-- A concrete nested multipart message: a plain-text leaf listed before a
nested HTML leaf. -/
def c1_tree : MimePart :=
  .mk "multipart/alternative" .absent
    [.mk "text/plain" (.decoded "T") [],
     .mk "multipart/related" .absent [.mk "text/html" (.decoded "H") []]]

theorem c1_extract_content_dfs_witness :
    wf_part c1_tree = true ∧ get_email_content c1_tree = spec_body c1_tree :=
  ⟨by decide, c1_extract_content_dfs c1_tree (by decide)⟩

/-- A flat multipart message whose first HTML leaf has malformed data and
whose second HTML leaf decodes to `"X"`. -/
def c7_tree : MimePart :=
  .mk "multipart/mixed" .absent
    [.mk "text/html" .malformed [], .mk "text/html" (.decoded "X") []]

/-- C7 counterexample: a malformed HTML leaf occurring earlier in
depth-first order makes the whole extraction return `""`, even though a
later well-formed HTML leaf (`"X"`, the one depth-first traversal would
find) exists at the same level: the decode error is caught at the
function boundary, not per leaf. -/
theorem c7_counterexample :
    extract_html_content c7_tree = "" ∧
    first_leaf "text/html" c7_tree = some "X" := by
  constructor
  · decide
  · decide

/-- C7 amended: a decode error is caught at the enclosing extraction
call's boundary, not per leaf. An error anywhere inside a nested
sub-part's subtree is contained by the recursive call (which returns its
caught result), and the loop continues with the sub-part's following
siblings; only the sub-part's nonempty result is returned. -/
theorem c7_nested_error_contained (mt pt : String) (b : BodyData) (c : MimePart)
    (crest rest : List MimePart) (hpt : pt ≠ mt) :
    extract_mime_loop mt (.mk pt b (c :: crest) :: rest) =
      (if extract_mime_content mt (.mk pt b (c :: crest)) = ""
       then extract_mime_loop mt rest
       else .ok (extract_mime_content mt (.mk pt b (c :: crest)))) := by
  rw [extract_mime_loop, if_neg hpt, extract_mime_content]
  cases extract_mime_try mt (.mk pt b (c :: crest)) with
  | error e => simp [loop_nested]
  | ok s => by_cases hs : s = "" <;> simp [loop_nested, hs]

/-- The erroring sub-part used in the C7 witness. -/
def c7_sub : MimePart := .mk "multipart/mixed" .absent [.mk "text/html" .malformed []]

/-- The well-formed sibling leaf used in the C7 witness. -/
def c7_good : MimePart := .mk "text/html" (.decoded "X") []

theorem c7_nested_error_contained_witness :
    ("multipart/mixed" : String) ≠ "text/html" ∧
    extract_mime_loop "text/html" (c7_sub :: [c7_good]) =
      (if extract_mime_content "text/html" c7_sub = ""
       then extract_mime_loop "text/html" [c7_good]
       else .ok (extract_mime_content "text/html" c7_sub)) :=
  ⟨by decide,
   c7_nested_error_contained "text/html" "multipart/mixed" .absent
     (.mk "text/html" .malformed []) [] [c7_good] (by decide)⟩

/-- Per-domain statistics (`domains_unsubscribed[domain]`,
app.py:1241-1247): running count, display sender name, and the set of
sender emails. The Python `set` is modelled as a duplicate-free insertion
list. -/
structure DomainStat where
  count : Nat
  sender_name : String
  emails : List String
deriving DecidableEq

/-- Per-user statistics (app.py:1106-1111): scanned and unsubscribed
totals, minutes saved, and per-domain stats. The Python dict is modelled
as an association list in insertion order. -/
structure UserStats where
  total_scanned : Nat
  total_unsubscribed : Nat
  time_saved : Nat
  domains_unsubscribed : List (String × DomainStat)
deriving DecidableEq

/-- Freshly initialized stats (app.py:1106-1111). -/
def init_stats : UserStats := ⟨0, 0, 0, []⟩

/-- Dictionary lookup over the association list. -/
def lookup_domain (m : List (String × DomainStat)) (d : String) : Option DomainStat :=
  match m with
  | [] => none
  | (k, v) :: rest => if k = d then some v else lookup_domain rest d

/-- Dictionary in-place update of the entry for key `d` (keys are unique
by construction, so updating the first match models the dict). -/
def update_domain (m : List (String × DomainStat)) (d : String) (f : DomainStat → DomainStat) :
    List (String × DomainStat) :=
  match m with
  | [] => []
  | (k, v) :: rest => if k = d then (k, f v) :: rest else (k, v) :: update_domain rest d f

/-- Python `set.add`: insert only when absent. -/
def insert_email (l : List String) (e : String) : List String :=
  if e ∈ l then l else l ++ [e]

/-- The scan update of the batch loop
(`user_stats[user_id]["total_scanned"] += 1`, app.py:1225 and the
equivalent increments on the warning paths). -/
def applyScan (s : UserStats) : UserStats :=
  { s with total_scanned := s.total_scanned + 1 }

/-- The successful-unsubscribe update of the batch loop
(app.py:1234-1247): increment `total_unsubscribed`, add 2 minutes to
`time_saved`, and, when the domain is nonempty, create its entry if
absent, increment its count, and add the sender email to its set when the
email is nonempty. -/
def applySuccess (s : UserStats) (domain sender_name sender_email : String) : UserStats :=
  let s1 := { s with
    total_unsubscribed := s.total_unsubscribed + 1,
    time_saved := s.time_saved + 2 }
  if domain = "" then s1
  else
    let m0 := s1.domains_unsubscribed
    let m1 := if (lookup_domain m0 domain).isNone
      then m0 ++ [(domain, ⟨0, sender_name, []⟩)] else m0
    let m2 := update_domain m1 domain (fun st => { st with count := st.count + 1 })
    let m3 := if sender_email = "" then m2
      else update_domain m2 domain (fun st => { st with emails := insert_email st.emails sender_email })
    { s1 with domains_unsubscribed := m3 }

/-- One stats update performed by the batch loop. -/
inductive StatsUpdate where
  | scan : StatsUpdate
  | success (domain sender_name sender_email : String) : StatsUpdate
deriving DecidableEq

def apply_update (s : UserStats) : StatsUpdate → UserStats
  | .scan => applyScan s
  | .success d n e => applySuccess s d n e

/-- The stats updates one processed message contributes: every message
that reaches the counting code is scanned; a successfully unsubscribed
message additionally gets the success update (app.py:1225-1247). -/
def msg_updates : Option (String × String × String) → List StatsUpdate
  | none => [.scan]
  | some (d, n, e) => [.scan, .success d n e]

/-- The update sequence the whole batch loop produces. -/
def loop_updates : List (Option (String × String × String)) → List StatsUpdate
  | [] => []
  | m :: rest => msg_updates m ++ loop_updates rest

/-- The spec's stats invariant. -/
def stats_inv (s : UserStats) : Prop :=
  s.total_unsubscribed ≤ s.total_scanned ∧ s.time_saved = 2 * s.total_unsubscribed

theorem applySuccess_counters (s : UserStats) (d n e : String) :
    (applySuccess s d n e).total_scanned = s.total_scanned ∧
    (applySuccess s d n e).total_unsubscribed = s.total_unsubscribed + 1 ∧
    (applySuccess s d n e).time_saved = s.time_saved + 2 := by
  rw [applySuccess]
  by_cases hd : d = "" <;> simp [hd]

theorem prefix_cons_cases {α : Type} {l : List α} {x : α} {xs : List α}
    (h : l <+: x :: xs) : l = [] ∨ ∃ t, l = x :: t ∧ t <+: xs := by
  cases l with
  | nil => exact Or.inl rfl
  | cons a as =>
    obtain ⟨t, ht⟩ := h
    rw [List.cons_append] at ht
    injection ht with h1 h2
    exact Or.inr ⟨as, by rw [h1], ⟨t, h2⟩⟩

theorem prefix_append_cases {α : Type} (l a b : List α) (h : l <+: a ++ b) :
    l <+: a ∨ ∃ c, l = a ++ c ∧ c <+: b := by
  induction a generalizing l with
  | nil => exact Or.inr ⟨l, rfl, h⟩
  | cons x xs ih =>
    rcases prefix_cons_cases h with rfl | ⟨t, rfl, ht⟩
    · exact Or.inl (List.nil_prefix)
    · rcases ih t ht with h1 | ⟨c, rfl, hc⟩
      · exact Or.inl (List.cons_prefix_cons.mpr ⟨rfl, h1⟩)
      · exact Or.inr ⟨c, rfl, hc⟩

theorem stats_inv_scan {s : UserStats} (h : stats_inv s) : stats_inv (applyScan s) := by
  obtain ⟨h1, h2⟩ := h
  constructor
  · simp [applyScan]; omega
  · simpa [applyScan] using h2

theorem stats_inv_scan_success {s : UserStats} (d n e : String) (h : stats_inv s) :
    stats_inv (applySuccess (applyScan s) d n e) := by
  obtain ⟨h1, h2⟩ := h
  obtain ⟨c1, c2, c3⟩ := applySuccess_counters (applyScan s) d n e
  constructor
  · rw [c1, c2]; simp [applyScan]; omega
  · rw [c3, c2]; simp [applyScan]; omega

theorem stats_inv_loop_prefix :
    ∀ (ms : List (Option (String × String × String))) (s : UserStats), stats_inv s →
      ∀ pre, pre <+: loop_updates ms → stats_inv (pre.foldl apply_update s) := by
  intro ms
  induction ms with
  | nil =>
    intro s hs pre hpre
    rw [loop_updates] at hpre
    rw [List.prefix_nil.mp hpre]
    exact hs
  | cons m rest ih =>
    intro s hs pre hpre
    rw [loop_updates] at hpre
    rcases prefix_append_cases pre (msg_updates m) (loop_updates rest) hpre with hl | ⟨c, rfl, hc⟩
    · match m with
      | none =>
        rcases prefix_cons_cases hl with rfl | ⟨t, rfl, ht⟩
        · exact hs
        · rw [List.prefix_nil.mp ht]
          exact stats_inv_scan hs
      | some (d, n, e) =>
        rcases prefix_cons_cases hl with rfl | ⟨t, rfl, ht⟩
        · exact hs
        · rcases prefix_cons_cases ht with rfl | ⟨u, rfl, hu⟩
          · exact stats_inv_scan hs
          · rw [List.prefix_nil.mp hu]
            exact stats_inv_scan_success d n e hs
    · rw [List.foldl_append]
      apply ih _ _ c hc
      match m with
      | none => exact stats_inv_scan hs
      | some (d, n, e) => exact stats_inv_scan_success d n e hs

/-- C2: for every interleaving of scan and successful-unsubscribe updates
produced by the batch loop, starting from freshly initialized stats,
`totalUnsubscribed ≤ totalScanned` and
`time_saved = totalUnsubscribed * 2` hold after every update (i.e. after
every prefix of the update sequence). -/
theorem c2_stats_invariant (ms : List (Option (String × String × String)))
    (pre : List StatsUpdate) (hpre : pre <+: loop_updates ms) :
    (pre.foldl apply_update init_stats).total_unsubscribed ≤
      (pre.foldl apply_update init_stats).total_scanned ∧
    (pre.foldl apply_update init_stats).time_saved =
      (pre.foldl apply_update init_stats).total_unsubscribed * 2 := by
  have h := stats_inv_loop_prefix ms init_stats (by constructor <;> simp [init_stats]) pre hpre
  obtain ⟨h1, h2⟩ := h
  exact ⟨h1, by omega⟩

theorem c2_stats_invariant_witness :
    ([StatsUpdate.scan, StatsUpdate.success "a.com" "A" "x@a.com"] <+:
      loop_updates [some ("a.com", "A", "x@a.com"), none]) ∧
    (([StatsUpdate.scan, StatsUpdate.success "a.com" "A" "x@a.com"].foldl
        apply_update init_stats).total_unsubscribed ≤
      ([StatsUpdate.scan, StatsUpdate.success "a.com" "A" "x@a.com"].foldl
        apply_update init_stats).total_scanned ∧
     ([StatsUpdate.scan, StatsUpdate.success "a.com" "A" "x@a.com"].foldl
        apply_update init_stats).time_saved =
      ([StatsUpdate.scan, StatsUpdate.success "a.com" "A" "x@a.com"].foldl
        apply_update init_stats).total_unsubscribed * 2) :=
  ⟨⟨loop_updates [none], by rfl⟩,
   c2_stats_invariant [some ("a.com", "A", "x@a.com"), none] _ ⟨loop_updates [none], by rfl⟩⟩

theorem lookup_domain_append_none {m : List (String × DomainStat)} {d : String}
    (l : List (String × DomainStat)) (h : lookup_domain m d = none) :
    lookup_domain (m ++ l) d = lookup_domain l d := by
  induction m with
  | nil => rfl
  | cons kv rest ih =>
    obtain ⟨k, v⟩ := kv
    rw [lookup_domain] at h
    by_cases hk : k = d
    · rw [if_pos hk] at h; cases h
    · rw [if_neg hk] at h
      rw [List.cons_append, lookup_domain, if_neg hk]
      exact ih h

theorem update_domain_append_none {m : List (String × DomainStat)} {d : String}
    (l : List (String × DomainStat)) (f : DomainStat → DomainStat)
    (h : lookup_domain m d = none) :
    update_domain (m ++ l) d f = m ++ update_domain l d f := by
  induction m with
  | nil => rfl
  | cons kv rest ih =>
    obtain ⟨k, v⟩ := kv
    rw [lookup_domain] at h
    by_cases hk : k = d
    · rw [if_pos hk] at h; cases h
    · rw [if_neg hk] at h
      rw [List.cons_append, update_domain, if_neg hk, List.cons_append, ih h]

/-- Applying the success update for a domain absent from the map appends a
fresh entry with count 1 and the sender email (when nonempty) as the sole
set element. -/
theorem applySuccess_new_domain (s : UserStats) (d n e : String) (hd : d ≠ "") (he : e ≠ "")
    (habs : lookup_domain s.domains_unsubscribed d = none) :
    (applySuccess s d n e).domains_unsubscribed =
      s.domains_unsubscribed ++ [(d, ⟨1, n, [e]⟩)] := by
  rw [applySuccess]
  simp only [if_neg hd, if_neg he, habs, Option.isNone_none, eq_self_iff_true, if_true]
  rw [update_domain_append_none _ _ habs]
  have h2 : lookup_domain s.domains_unsubscribed d = none := habs
  rw [update_domain_append_none _ _ h2]
  simp [update_domain, insert_email]

/-- Applying the success update when the domain's entry is the last entry
of the map increments its count and set-inserts the sender email. -/
theorem applySuccess_last_domain (s : UserStats) (d n e : String) (hd : d ≠ "") (he : e ≠ "")
    (m0 : List (String × DomainStat)) (st : DomainStat)
    (habs : lookup_domain m0 d = none)
    (hdom : s.domains_unsubscribed = m0 ++ [(d, st)]) :
    (applySuccess s d n e).domains_unsubscribed =
      m0 ++ [(d, ⟨st.count + 1, st.sender_name, insert_email st.emails e⟩)] := by
  rw [applySuccess]
  simp only [if_neg hd, if_neg he, hdom]
  rw [lookup_domain_append_none _ habs]
  simp only [lookup_domain, eq_self_iff_true, if_true, Option.isNone_some,
    Bool.false_eq_true, if_false]
  rw [update_domain_append_none _ _ habs, update_domain_append_none _ _ habs]
  simp [update_domain]

/-- C8 amended core: the per-application counter delta. -/
theorem applySuccess_unsub_delta (s : UserStats) (d n e : String) :
    (applySuccess s d n e).total_unsubscribed = s.total_unsubscribed + 1 :=
  (applySuccess_counters s d n e).2.1

/-- C8: applying the successful-unsubscribe update twice with the same
(nonempty) domain and sender email, starting from a state where the
domain has no entry, leaves the domain's email set with exactly one
occurrence of the email while the count reaches 2 and
`totalUnsubscribed` is incremented by each application. -/
theorem c8_double_success (s : UserStats) (d n e : String) (hd : d ≠ "") (he : e ≠ "")
    (habs : lookup_domain s.domains_unsubscribed d = none) :
    lookup_domain (applySuccess (applySuccess s d n e) d n e).domains_unsubscribed d =
      some ⟨2, n, [e]⟩ ∧
    (applySuccess (applySuccess s d n e) d n e).total_unsubscribed =
      s.total_unsubscribed + 2 ∧
    List.count e [e] = 1 := by
  have h1 := applySuccess_new_domain s d n e hd he habs
  have h2 := applySuccess_last_domain (applySuccess s d n e) d n e hd he
    s.domains_unsubscribed ⟨1, n, [e]⟩ habs h1
  refine ⟨?_, ?_, by simp⟩
  · rw [h2, lookup_domain_append_none _ habs]
    simp [lookup_domain, insert_email]
  · rw [applySuccess_unsub_delta, applySuccess_unsub_delta]

theorem c8_double_success_witness :
    ("a.com" : String) ≠ "" ∧ ("x@a.com" : String) ≠ "" ∧
    lookup_domain init_stats.domains_unsubscribed "a.com" = none ∧
    (lookup_domain (applySuccess (applySuccess init_stats "a.com" "A" "x@a.com")
        "a.com" "A" "x@a.com").domains_unsubscribed "a.com" =
      some ⟨2, "A", ["x@a.com"]⟩ ∧
    (applySuccess (applySuccess init_stats "a.com" "A" "x@a.com")
        "a.com" "A" "x@a.com").total_unsubscribed =
      init_stats.total_unsubscribed + 2 ∧
    List.count "x@a.com" ["x@a.com"] = 1) :=
  ⟨by decide, by decide, by rfl,
   c8_double_success init_stats "a.com" "A" "x@a.com" (by decide) (by decide) (by rfl)⟩

/-- Characters matched by the class `[-\s]` in the regex `opt[-\s]?out`
(`-` and ASCII whitespace; Python `\s` restricted to ASCII, which covers
all inputs of interest). -/
def sep_char (c : Char) : Bool :=
  c = '-' || c = ' ' || c = '\t' || c = '\n' || c = '\r' ||
  c = Char.ofNat 11 || c = Char.ofNat 12

/-- Case folding for the regex's `re.I` flag, per character (ASCII). -/
def lower_chars (s : String) : List Char :=
  s.toList.map Char.toLower

/-- Substring scan: does `w` occur as a contiguous substring of the
input? This is the Bool-level semantics of `pattern.search` for one
alternative that is a literal word. -/
def word_search (w : List Char) : List Char → Bool
  | [] => w.isEmpty
  | c :: rest => w.isPrefixOf (c :: rest) || word_search w rest

/-- Matching the tail of `opt[-\s]?out` after the literal `opt`: either
`out` directly, or one separator character and then `out`. -/
def opt_out_tail (l : List Char) : Bool :=
  "out".toList.isPrefixOf l ||
  (match l with
   | c :: rest => sep_char c && "out".toList.isPrefixOf rest
   | [] => false)

/-- Does a match of `opt[-\s]?out` start at the head of the input? -/
def opt_out_at (l : List Char) : Bool :=
  "opt".toList.isPrefixOf l && opt_out_tail (l.drop 3)

/-- Substring scan for the `opt[-\s]?out` alternative. -/
def opt_out_search : List Char → Bool
  | [] => false
  | c :: rest => opt_out_at (c :: rest) || opt_out_search rest

/-- Search semantics of `pattern.search` for the compiled regex
`re.compile(r'unsubscribe|opt[-\s]?out|email preferences', re.I)`
(app.py:1495): some alternative occurs in the case-folded input. -/
def unsub_regex_search (s : String) : Bool :=
  let t := lower_chars s
  word_search "unsubscribe".toList t ||
  opt_out_search t ||
  word_search "email preferences".toList t

/-- An anchor element with an `href` attribute, as produced by
`soup.find_all('a', href=True)`: its visible text (`link.text`) and its
href value (`link.get('href', '')`). The BeautifulSoup HTML parse is
abstracted to this anchor list. -/
structure Anchor where
  text : String
  href : String
deriving DecidableEq

/-- The candidate test of the locator loop (app.py:1497-1504):
`if link_href and (pattern.search(link_text) or pattern.search(link_href))`. -/
def anchor_qualifies (a : Anchor) : Bool :=
  !(a.href = "") && (unsub_regex_search a.text || unsub_regex_search a.href)

/-- Function `extract_unsub_links` (app.py:1487-1512) over the parsed anchors:
append the href of every qualifying anchor, in document order. -/
def extract_unsub_links : List Anchor → List String
  | [] => []
  | a :: rest =>
    if anchor_qualifies a then a.href :: extract_unsub_links rest
    else extract_unsub_links rest

/-- Modelled from the spec: the words generated by the regex alternative
`opt[-\s]?out`. -/
def OptOutWord (w : List Char) : Prop :=
  w = "optout".toList ∨
  ∃ c, sep_char c = true ∧ w = "opt".toList ++ [c] ++ "out".toList

/-- Modelled from the spec: declarative matching semantics of the
pattern `unsubscribe | opt[-\s]?out | email preferences`,
case-insensitively — some decomposition of the case-folded input contains
a word of the pattern's language. -/
def PatternMatch (s : String) : Prop :=
  ∃ pre core post, lower_chars s = pre ++ core ++ post ∧
    (core = "unsubscribe".toList ∨ OptOutWord core ∨ core = "email preferences".toList)

theorem word_search_iff (w l : List Char) : word_search w l = true ↔ w <:+: l := by
  induction l with
  | nil =>
    rw [word_search, List.isEmpty_iff, List.infix_nil]
  | cons c rest ih =>
    rw [word_search, Bool.or_eq_true, List.isPrefixOf_iff_prefix, ih, List.infix_cons_iff]

theorem opt_out_tail_iff (l : List Char) :
    opt_out_tail l = true ↔
      (∃ post, l = "out".toList ++ post) ∨
      (∃ c post, sep_char c = true ∧ l = c :: ("out".toList ++ post)) := by
  cases l with
  | nil =>
    simp [opt_out_tail, List.isPrefixOf_iff_prefix]
  | cons c rest =>
    rw [opt_out_tail]
    simp only [Bool.or_eq_true, Bool.and_eq_true, List.isPrefixOf_iff_prefix]
    constructor
    · rintro (h | ⟨hc, h⟩)
      · obtain ⟨t, ht⟩ := h
        exact Or.inl ⟨t, ht.symm⟩
      · obtain ⟨t, ht⟩ := h
        exact Or.inr ⟨c, t, hc, by rw [← ht]⟩
    · rintro (⟨post, hp⟩ | ⟨c2, post, hc2, hp⟩)
      · exact Or.inl (by rw [hp]; exact ⟨post, rfl⟩)
      · injection hp with h1 h2
        subst h1
        exact Or.inr ⟨hc2, by rw [h2]; exact ⟨post, rfl⟩⟩

theorem opt_out_at_iff (l : List Char) :
    opt_out_at l = true ↔ ∃ w post, OptOutWord w ∧ l = w ++ post := by
  rw [opt_out_at, Bool.and_eq_true, List.isPrefixOf_iff_prefix]
  constructor
  · rintro ⟨⟨r, hr⟩, htail⟩
    rw [← hr] at htail ⊢
    rw [show ("opt".toList ++ r).drop 3 = r from rfl] at htail
    rcases (opt_out_tail_iff r).mp htail with ⟨post, hp⟩ | ⟨c, post, hc, hp⟩
    · exact ⟨"optout".toList, post, Or.inl rfl, by rw [hp]; rfl⟩
    · exact ⟨"opt".toList ++ [c] ++ "out".toList, post, Or.inr ⟨c, hc, rfl⟩, by rw [hp]; simp⟩
  · rintro ⟨w, post, hw, rfl⟩
    rcases hw with rfl | ⟨c, hc, rfl⟩
    · refine ⟨⟨"out".toList ++ post, rfl⟩, ?_⟩
      rw [show (("optout".toList : List Char) ++ post).drop 3 = "out".toList ++ post from rfl]
      rw [opt_out_tail_iff]
      exact Or.inl ⟨post, rfl⟩
    · refine ⟨⟨[c] ++ "out".toList ++ post, by simp⟩, ?_⟩
      rw [show (("opt".toList ++ [c] ++ "out".toList : List Char) ++ post).drop 3 =
        c :: ("out".toList ++ post) by simp]
      rw [opt_out_tail_iff]
      exact Or.inr ⟨c, post, hc, rfl⟩

theorem opt_out_word_ne_nil {w : List Char} (h : OptOutWord w) : w ≠ [] := by
  rcases h with rfl | ⟨c, -, rfl⟩ <;> simp

theorem opt_out_search_iff (l : List Char) :
    opt_out_search l = true ↔ ∃ pre w post, OptOutWord w ∧ l = pre ++ w ++ post := by
  induction l with
  | nil =>
    rw [opt_out_search]
    simp only [Bool.false_eq_true, false_iff]
    rintro ⟨pre, w, post, hw, h⟩
    rcases List.append_eq_nil.mp ((List.append_eq_nil.mp h.symm).1) with ⟨-, hw2⟩
    exact opt_out_word_ne_nil hw hw2
  | cons c rest ih =>
    rw [opt_out_search, Bool.or_eq_true, opt_out_at_iff, ih]
    constructor
    · rintro (⟨w, post, hw, hp⟩ | ⟨pre, w, post, hw, rfl⟩)
      · exact ⟨[], w, post, hw, by rw [hp]; rfl⟩
      · exact ⟨c :: pre, w, post, hw, rfl⟩
    · rintro ⟨pre, w, post, hw, hp⟩
      cases pre with
      | nil => exact Or.inl ⟨w, post, hw, by simpa using hp⟩
      | cons p pre2 =>
        rw [List.cons_append, List.cons_append] at hp
        injection hp with h1 h2
        exact Or.inr ⟨pre2, w, post, hw, h2⟩

/-- The compiled search agrees with the declarative matching semantics of
the three-alternative pattern. -/
theorem unsub_regex_search_iff (s : String) :
    unsub_regex_search s = true ↔ PatternMatch s := by
  rw [unsub_regex_search, PatternMatch]
  simp only [Bool.or_eq_true, word_search_iff, opt_out_search_iff]
  constructor
  · rintro ((h | ⟨pre, w, post, hw, hp⟩) | h)
    · obtain ⟨pre, post, hp⟩ := h
      exact ⟨pre, _, post, hp.symm, Or.inl rfl⟩
    · exact ⟨pre, w, post, hp, Or.inr (Or.inl hw)⟩
    · obtain ⟨pre, post, hp⟩ := h
      exact ⟨pre, _, post, hp.symm, Or.inr (Or.inr rfl)⟩
  · rintro ⟨pre, core, post, hp, rfl | hw | rfl⟩
    · exact Or.inl (Or.inl ⟨pre, post, hp.symm⟩)
    · exact Or.inl (Or.inr ⟨pre, core, post, hw, hp⟩)
    · exact Or.inr ⟨pre, post, hp.symm⟩

/-- Modelled from the spec: a URL whose scheme is `http` or `https`. -/
def has_http_scheme (u : String) : Bool :=
  "http://".toList.isPrefixOf u.toList || "https://".toList.isPrefixOf u.toList

/-- C3 counterexample: an anchor whose text matches the unsubscribe
pattern but whose href is relative (no `http`/`https` scheme) IS included
in the returned candidate list — the code has no scheme filter, contrary
to the claim that such anchors are never included. -/
theorem c3_counterexample :
    extract_unsub_links [⟨"Unsubscribe", "/relative"⟩] = ["/relative"] ∧
    has_http_scheme "/relative" = false := by
  constructor
  · decide
  · decide

/-- C3 amended: the locator performs no scheme filtering — it returns
exactly the hrefs of the anchors with a nonempty href whose text or href
matches the pattern, in document order; relative and other-scheme hrefs
are included whenever they match. -/
theorem c3_no_scheme_filter (anchors : List Anchor) :
    extract_unsub_links anchors = (anchors.filter anchor_qualifies).map Anchor.href := by
  induction anchors with
  | nil => rfl
  | cons a rest ih =>
    rw [extract_unsub_links, List.filter_cons]
    by_cases h : anchor_qualifies a
    · simp [h, ih]
    · simp [h, ih]

/-- C4 counterexample: an anchor whose visible text is
`"Manage preferences"` (and whose href matches nothing) does NOT qualify
as an unsubscribe candidate — the compiled pattern has no
`manage preferences` alternative, contrary to the claim. -/
theorem c4_counterexample :
    anchor_qualifies ⟨"Manage preferences", "https://x.com/other"⟩ = false ∧
    extract_unsub_links [⟨"Manage preferences", "https://x.com/other"⟩] = [] := by
  constructor
  · decide
  · decide

/-- C4 amended: an anchor with an href qualifies as an unsubscribe
candidate if and only if its href is nonempty and its visible text or its
href matches, case-insensitively, the pattern
`unsubscribe | opt[-\s]?out | email preferences` (there is no
`manage preferences` alternative). -/
theorem c4_anchor_qualification (a : Anchor) :
    anchor_qualifies a = true ↔
      a.href ≠ "" ∧ (PatternMatch a.text ∨ PatternMatch a.href) := by
  rw [anchor_qualifies]
  simp only [Bool.and_eq_true, Bool.or_eq_true, Bool.not_eq_true', decide_eq_false_iff_not,
    unsub_regex_search_iff]

/-- Function `execute_unsub` (app.py:1514-1526), with the single network GET
abstracted to its outcome: a status code, or a raised exception (timeout,
DNS failure, connection error). Status 200 returns true; any other
status falls through; the `except` clause swallows every exception; both
fall-through paths `return False`. -/
def execute_unsub (outcome : Except Unit Nat) : Bool :=
  match outcome with
  | .ok status => status == 200
  | .error _ => false

/-- C9: the unsubscription executor returns true if and only if the
single HTTP GET it issues yields status 200; any other status or any
exception yields false, and the executor never raises (it is a total
function of the GET outcome, consuming exactly one outcome — no
retry). -/
theorem c9_execute_unsub_iff (outcome : Except Unit Nat) :
    execute_unsub outcome = true ↔ outcome = Except.ok 200 := by
  cases outcome with
  | error e => simp [execute_unsub]
  | ok status => simp [execute_unsub]

/-- Email header metadata (app.py:1420-1428); `extract_email_metadata` is
total (it catches all its own errors and returns defaults). -/
structure Metadata where
  sender : String
  sender_name : String
  sender_email : String
  domain : String
  subject : String
  date : String
deriving DecidableEq

def empty_metadata : Metadata := ⟨"", "", "", "", "", ""⟩

/-- A fetched Gmail message: its optional payload tree and the metadata
derived from its headers (the header parse, being total, is abstracted to
this field). -/
structure GmailMessage where
  payload : Option MimePart
  metadata : Metadata

/-- The result dict of `get_email`. -/
structure EmailData where
  content : String
  metadata : Metadata
deriving DecidableEq

/-- The `try:` body of `get_email` (app.py:1323-1350): a fetch exception
propagates; a missing message yields empty content and metadata; a
missing payload yields empty content with the parsed metadata; otherwise
content extraction runs (HTML, then plain text). -/
def get_email_try (fetch : Except Unit (Option GmailMessage)) : Except Unit EmailData :=
  match fetch with
  | .error e => .error e
  | .ok none => .ok ⟨"", empty_metadata⟩
  | .ok (some msg) =>
    match msg.payload with
    | none => .ok ⟨"", msg.metadata⟩
    | some payload => .ok ⟨get_email_content payload, msg.metadata⟩

/-- Function `get_email` as its caller observes it: the `except` clause
(app.py:1352-1355) converts any exception into the normal return
`{"content": "", "metadata": {}}`. -/
def get_email (fetch : Except Unit (Option GmailMessage)) : EmailData :=
  match get_email_try fetch with
  | .ok d => d
  | .error _ => ⟨"", empty_metadata⟩

/-- The exception semantics of the call `get_email(service, msg_id)`:
both the normal path and the `except` path of `get_email` end in a
`return`, so the call yields a value either way. -/
def get_email_call (fetch : Except Unit (Option GmailMessage)) : Except Unit EmailData :=
  match get_email_try fetch with
  | .ok d => .ok d
  | .error _ => .ok ⟨"", empty_metadata⟩

theorem get_email_call_eq (fetch : Except Unit (Option GmailMessage)) :
    get_email_call fetch = Except.ok (get_email fetch) := by
  rw [get_email_call, get_email]
  cases get_email_try fetch with
  | ok d => rfl
  | error e => rfl

/-- Activity records, by emission site in `process_unsubscriptions`; the
`summary` record carries the processed/successful/failed counts of the
final activity (app.py:1317-1319). -/
inductive Activity where
  | setupLabels : Activity
  | searching : Activity
  | noEmailsFound : Activity
  | foundEmails (n : Nat) : Activity
  | noContent (i : Nat) (md : Metadata) : Activity
  | fetchFailed (i : Nat) : Activity
  | noLinks (i : Nat) (md : Metadata) : Activity
  | unsubSuccess (md : Metadata) : Activity
  | unsubFailure (md : Metadata) : Activity
  | unexpectedError (i : Nat) : Activity
  | summary (total successful failed : Nat) : Activity
deriving DecidableEq

/-- The activity type passed to `add_activity` at each site. -/
inductive ActivityType where
  | info : ActivityType
  | warning : ActivityType
  | success : ActivityType
  | error : ActivityType
deriving DecidableEq

def Activity.atype : Activity → ActivityType
  | .setupLabels => .info
  | .searching => .info
  | .noEmailsFound => .warning
  | .foundEmails _ => .info
  | .noContent _ _ => .warning
  | .fetchFailed _ => .error
  | .noLinks _ _ => .warning
  | .unsubSuccess _ => .success
  | .unsubFailure _ => .error
  | .unexpectedError _ => .error
  | .summary _ _ _ => .success

def is_summary : Activity → Bool
  | .summary _ _ _ => true
  | _ => false

/-- The environment one message's processing interacts with: whether an
unexpected exception (e.g. the `KeyError` the code logs specially) is
raised inside the iteration body, the transport outcome of the
per-message fetch, the anchors the HTML parser finds in the extracted
content, and the network outcome of each candidate link's GET, by
URL. -/
structure MsgEnv where
  unexpected : Bool
  fetch : Except Unit (Option GmailMessage)
  anchors : List Anchor
  http : String → Except Unit Nat

/-- Orchestrator state: the user's stats, the activities emitted during
the run in emission order (`add_activity` prepends each to the stored
window and truncates it to 50; the store itself is not needed by the
claims, the emission log is), and the loop counters. -/
structure BatchState where
  stats : UserStats
  emitted : List Activity
  successful : Nat
  failed : Nat

/-- The `for link in unsub_links:` loop (app.py:1210-1213): visit
candidates in order, stop at the first success. -/
def try_links (http : String → Except Unit Nat) : List String → Bool
  | [] => false
  | l :: rest => if execute_unsub (http l) then true else try_links http rest

/-- One iteration of the per-message loop (app.py:1159-1315): the
catch-all boundary around the whole iteration, then step 1 (fetch with
its dead `except content_error` branch — `get_email` never raises — and
the empty-content branch), step 2 (link extraction; `extract_unsub_links`
catches its own errors, so only the empty-list branch is live), step 3
(try candidates in order), step 4 (scan count), and the success/failure
bookkeeping. Label mutation (step 5) is swallowed best-effort and touches
no modelled state. -/
def process_message (i : Nat) (env : MsgEnv) (st : BatchState) : BatchState :=
  if env.unexpected then
    { st with emitted := st.emitted ++ [.unexpectedError i], failed := st.failed + 1 }
  else
    match get_email_call env.fetch with
    | .error _ =>
      { st with emitted := st.emitted ++ [.fetchFailed i], failed := st.failed + 1 }
    | .ok email_data =>
      if email_data.content = "" then
        { st with
          stats := applyScan st.stats,
          emitted := st.emitted ++ [.noContent i email_data.metadata],
          failed := st.failed + 1 }
      else
        let md := email_data.metadata
        let links := extract_unsub_links env.anchors
        if links.isEmpty then
          { st with
            stats := applyScan st.stats,
            emitted := st.emitted ++ [.noLinks i md],
            failed := st.failed + 1 }
        else
          let unsubscribed := try_links env.http links
          let st1 := { st with stats := applyScan st.stats }
          if unsubscribed then
            { st1 with
              stats := applySuccess st1.stats md.domain md.sender_name md.sender_email,
              emitted := st1.emitted ++ [.unsubSuccess md],
              successful := st1.successful + 1 }
          else
            { st1 with
              emitted := st1.emitted ++ [.unsubFailure md],
              failed := st1.failed + 1 }

/-- The `for i, msg in enumerate(messages):` loop. -/
def loop_messages (envs : List MsgEnv) (i : Nat) (st : BatchState) : BatchState :=
  match envs with
  | [] => st
  | e :: rest => loop_messages rest (i + 1) (process_message i e st)

/-- The post-search part of `process_unsubscriptions` (app.py:1140-1319):
setup and search activities, the empty-result early return, the
found-emails activity, the per-message loop with counters starting at
zero, and the single final summary activity. -/
def process_unsubscriptions (envs : List MsgEnv) (st0 : BatchState) : BatchState :=
  let st1 := { st0 with
    emitted := st0.emitted ++ [Activity.setupLabels, Activity.searching],
    successful := 0, failed := 0 }
  if envs.isEmpty then
    { st1 with emitted := st1.emitted ++ [Activity.noEmailsFound] }
  else
    let st2 := { st1 with emitted := st1.emitted ++ [Activity.foundEmails envs.length] }
    let st3 := loop_messages envs 0 st2
    { st3 with
      emitted := st3.emitted ++
        [Activity.summary (st3.successful + st3.failed) st3.successful st3.failed] }

/-- Every iteration of the per-message loop appends exactly one activity,
never a summary and never the dead fetch-exception error, and accounts
the message to exactly one of the two counters. -/
theorem process_message_shape (i : Nat) (env : MsgEnv) (st : BatchState) :
    ∃ a, (process_message i env st).emitted = st.emitted ++ [a] ∧
      is_summary a = false ∧
      (∀ j, a ≠ Activity.fetchFailed j) ∧
      (process_message i env st).successful + (process_message i env st).failed =
        st.successful + st.failed + 1 := by
  rw [process_message]
  cases hue : env.unexpected with
  | true =>
    rw [if_pos rfl]
    refine ⟨.unexpectedError i, ?_, ?_, ?_, ?_⟩
    · simp
    · rfl
    · intro j h; cases h
    · simp; omega
  | false =>
    rw [if_neg (by simp)]
    rw [get_email_call_eq]
    dsimp only
    by_cases hc : (get_email env.fetch).content = ""
    · rw [if_pos hc]
      refine ⟨.noContent i (get_email env.fetch).metadata, ?_, ?_, ?_, ?_⟩
      · simp
      · rfl
      · intro j h; cases h
      · simp; omega
    · rw [if_neg hc]
      by_cases hl : (extract_unsub_links env.anchors).isEmpty
      · rw [if_pos hl]
        refine ⟨.noLinks i (get_email env.fetch).metadata, ?_, ?_, ?_, ?_⟩
        · simp
        · rfl
        · intro j h; cases h
        · simp; omega
      · rw [if_neg hl]
        by_cases hun : try_links env.http (extract_unsub_links env.anchors) = true
        · rw [if_pos hun]
          refine ⟨.unsubSuccess (get_email env.fetch).metadata, ?_, ?_, ?_, ?_⟩
          · simp
          · rfl
          · intro j h; cases h
          · simp; omega
        · rw [if_neg hun]
          refine ⟨.unsubFailure (get_email env.fetch).metadata, ?_, ?_, ?_, ?_⟩
          · simp
          · rfl
          · intro j h; cases h
          · simp; omega

/-- Running the loop appends an activity list with no summary and no
fetch-exception error in it, and adds exactly the number of messages to
the two counters together. -/
theorem loop_messages_shape (envs : List MsgEnv) (i : Nat) (st : BatchState) :
    ∃ l, (loop_messages envs i st).emitted = st.emitted ++ l ∧
      l.filter is_summary = [] ∧
      (∀ j, Activity.fetchFailed j ∉ l) ∧
      (loop_messages envs i st).successful + (loop_messages envs i st).failed =
        st.successful + st.failed + envs.length := by
  induction envs generalizing i st with
  | nil =>
    refine ⟨[], ?_, ?_, ?_, ?_⟩
    · rw [loop_messages]; simp
    · rfl
    · intro j h; cases h
    · rw [loop_messages]; simp
  | cons e rest ih =>
    rw [loop_messages]
    obtain ⟨a, ha, hs, hnf, hc⟩ := process_message_shape i e st
    obtain ⟨l, hl, hls, hlnf, hlc⟩ := ih (i + 1) (process_message i e st)
    refine ⟨a :: l, ?_, ?_, ?_, ?_⟩
    · rw [hl, ha, List.append_assoc]; rfl
    · rw [List.filter_cons, hs]; simpa using hls
    · intro j hj
      rcases List.mem_cons.mp hj with rfl | hj2
      · exact hnf j rfl
      · exact hlnf j hj2
    · rw [hlc, hc]; simp; omega

/-- C5: for every message whose content extraction fails or yields empty
content (a fetch failure also lands here, since `get_email` converts it
to empty content), the orchestrator increments `total_scanned`, emits the
warning activity with the available sender info, counts the message as
failed, and continues (the loop structure is unconditional). -/
theorem c5_empty_content_scanned (i : Nat) (env : MsgEnv) (st : BatchState)
    (hu : env.unexpected = false)
    (hc : (get_email env.fetch).content = "") :
    (process_message i env st).stats.total_scanned = st.stats.total_scanned + 1 ∧
    (process_message i env st).emitted =
      st.emitted ++ [Activity.noContent i (get_email env.fetch).metadata] ∧
    Activity.atype (Activity.noContent i (get_email env.fetch).metadata) =
      ActivityType.warning ∧
    (process_message i env st).failed = st.failed + 1 := by
  rw [process_message, if_neg (by simp [hu]), get_email_call_eq]
  dsimp only
  rw [if_pos hc]
  exact ⟨by simp [applyScan], rfl, rfl, by simp⟩

/-- The message environment of the C5 witness: the fetch returns no
message, so extraction yields empty content. -/
def c5_env : MsgEnv := ⟨false, .ok none, [], fun _ => .error ()⟩

/-- The initial batch state used by the orchestrator witnesses. -/
def batch0 : BatchState := ⟨init_stats, [], 0, 0⟩

theorem c5_empty_content_scanned_witness :
    (process_message 0 c5_env batch0).stats.total_scanned =
      batch0.stats.total_scanned + 1 ∧
    (process_message 0 c5_env batch0).emitted =
      batch0.emitted ++ [Activity.noContent 0 (get_email c5_env.fetch).metadata] ∧
    Activity.atype (Activity.noContent 0 (get_email c5_env.fetch).metadata) =
      ActivityType.warning ∧
    (process_message 0 c5_env batch0).failed = batch0.failed + 1 :=
  c5_empty_content_scanned 0 c5_env batch0 rfl rfl

/-- C6: for every nonempty message list, every per-message exception is
caught at the message boundary (each message contributes exactly one
non-summary activity and one counter increment, whatever its environment
does), the loop reaches every message, and exactly one final summary
activity is emitted, last, reporting the successful and failed counts,
which account for all messages. -/
theorem c6_batch_error_isolation (envs : List MsgEnv) (st0 : BatchState) (h : envs ≠ []) :
    ((process_unsubscriptions envs st0).emitted.filter is_summary).length =
      (st0.emitted.filter is_summary).length + 1 ∧
    (process_unsubscriptions envs st0).emitted.getLast? =
      some (Activity.summary
        ((process_unsubscriptions envs st0).successful +
          (process_unsubscriptions envs st0).failed)
        (process_unsubscriptions envs st0).successful
        (process_unsubscriptions envs st0).failed) ∧
    (process_unsubscriptions envs st0).successful +
      (process_unsubscriptions envs st0).failed = envs.length := by
  rw [process_unsubscriptions]
  rw [if_neg (by simpa using h)]
  dsimp only
  obtain ⟨l, hl, hls, -, hc⟩ :=
    loop_messages_shape envs 0
      { st0 with
        emitted := (st0.emitted ++ [Activity.setupLabels, Activity.searching]) ++
          [Activity.foundEmails envs.length],
        successful := 0, failed := 0 }
  rw [hl]
  refine ⟨?_, ?_, ?_⟩
  · simp only [List.filter_append, List.length_append, hls]
    simp [is_summary]
  · rw [List.getLast?_concat]
  · simpa using hc

/-- Message environments of the C6 witness: one normally processed
message and one whose iteration raises an unexpected exception. -/
def c6_env_ok : MsgEnv := ⟨false, .ok none, [], fun _ => .error ()⟩

/-- The exception-raising message of the C6 witness. -/
def c6_env_bad : MsgEnv := ⟨true, .ok none, [], fun _ => .error ()⟩

def c6_envs : List MsgEnv := [c6_env_ok, c6_env_bad]

theorem c6_batch_error_isolation_witness :
    ((process_unsubscriptions c6_envs batch0).emitted.filter is_summary).length =
      (batch0.emitted.filter is_summary).length + 1 ∧
    (process_unsubscriptions c6_envs batch0).emitted.getLast? =
      some (Activity.summary
        ((process_unsubscriptions c6_envs batch0).successful +
          (process_unsubscriptions c6_envs batch0).failed)
        (process_unsubscriptions c6_envs batch0).successful
        (process_unsubscriptions c6_envs batch0).failed) ∧
    (process_unsubscriptions c6_envs batch0).successful +
      (process_unsubscriptions c6_envs batch0).failed = c6_envs.length :=
  c6_batch_error_isolation c6_envs batch0 (by simp [c6_envs])

/-- C10: `get_email` is total — every fetch outcome yields a normal
return (first conjunct, for all outcomes), a failing fetch yields
`{"content": "", "metadata": {}}` (second conjunct), such a message is
processed through the empty-content branch, which increments
`total_scanned` (third conjunct), and the orchestrator's content-fetch
exception branch is unreachable: no iteration ever emits its error
activity (fourth conjunct, for all environments). -/
theorem c10_get_email_total (i : Nat) (env : MsgEnv) (st : BatchState)
    (hu : env.unexpected = false) (hf : env.fetch = Except.error ()) :
    (∀ f, get_email_call f = Except.ok (get_email f)) ∧
    get_email env.fetch = ⟨"", empty_metadata⟩ ∧
    process_message i env st =
      { st with
        stats := applyScan st.stats,
        emitted := st.emitted ++ [Activity.noContent i empty_metadata],
        failed := st.failed + 1 } ∧
    (∀ j e2 s2, ∃ l2, (process_message j e2 s2).emitted = s2.emitted ++ l2 ∧
      ∀ k, Activity.fetchFailed k ∉ l2) := by
  have hge : get_email env.fetch = ⟨"", empty_metadata⟩ := by rw [hf]; rfl
  refine ⟨get_email_call_eq, hge, ?_, ?_⟩
  · rw [process_message, if_neg (by simp [hu]), get_email_call_eq]
    dsimp only
    rw [hge]
    simp
  · intro j e2 s2
    obtain ⟨a, ha, -, hnf, -⟩ := process_message_shape j e2 s2
    exact ⟨[a], ha, fun k hk => hnf k (List.mem_singleton.mp hk).symm⟩

/-- The failing-fetch environment of the C10 witness. -/
def c10_env : MsgEnv := ⟨false, .error (), [], fun _ => .error ()⟩

theorem c10_get_email_total_witness :
    (∀ f, get_email_call f = Except.ok (get_email f)) ∧
    get_email c10_env.fetch = ⟨"", empty_metadata⟩ ∧
    process_message 0 c10_env batch0 =
      { batch0 with
        stats := applyScan batch0.stats,
        emitted := batch0.emitted ++ [Activity.noContent 0 empty_metadata],
        failed := batch0.failed + 1 } ∧
    (∀ j e2 s2, ∃ l2, (process_message j e2 s2).emitted = s2.emitted ++ l2 ∧
      ∀ k, Activity.fetchFailed k ∉ l2) :=
  c10_get_email_total 0 c10_env batch0 rfl rfl
